import Mathlib

/-!
Verification of the logcabin pipeline runtime (src/logcabin/event.py and
src/logcabin/flow.py), shallowly embedded in Lean.

Python dynamic values carried by events and seen by condition expressions
are modelled by the inductive type `Value`.  A bound method object obtained
by attribute lookup on an `Event` (for example `e.get`) is modelled by the
constructor `Value.method` carrying the method name.  Timestamps model
`datetime.datetime` instants (the fields of interest to the code:
year, month, day, hour, minute, second, microsecond).
-/

structure Timestamp where
  year : Nat
  month : Nat
  day : Nat
  hour : Nat
  minute : Nat
  second : Nat
  microsecond : Nat
  deriving DecidableEq, Repr

inductive Value where
  | null : Value
  | bool (b : Bool) : Value
  | int (n : Int) : Value
  | str (s : String) : Value
  | list (vs : List Value) : Value
  | timestamp (t : Timestamp) : Value
  | method (name : String) : Value

/-- Python truthiness of a value, as used by `if case(...)` in
`Switch.process` and `if self.condition(...)` in `If.process`:
None and False are falsy, numbers are truthy unless zero, strings and
lists unless empty; datetime and bound method objects are always truthy. -/
def Value.truthy : Value → Bool
  | .null => false
  | .bool b => b
  | .int n => n != 0
  | .str s => s != ""
  | .list vs => !vs.isEmpty
  | .timestamp _ => true
  | .method _ => true

mutual

/-- Python equality between modelled values (`==`).  Python compares
booleans and integers numerically; values of unrelated types compare
unequal.  Bound methods of the same underlying dict compare equal exactly
when they are the same method. -/
def pyEq : Value → Value → Bool
  | .null, .null => true
  | .bool a, .bool b => a == b
  | .bool a, .int n => (if a then (1 : Int) else 0) == n
  | .int n, .bool a => n == (if a then (1 : Int) else 0)
  | .int a, .int b => a == b
  | .str a, .str b => a == b
  | .list a, .list b => pyEqList a b
  | .timestamp a, .timestamp b => a == b
  | .method a, .method b => a == b
  | _, _ => false

def pyEqList : List Value → List Value → Bool
  | [], [] => true
  | a :: as_, b :: bs => pyEq a b && pyEqList as_ bs
  | _, _ => false

end

/-!
The Event type (src/logcabin/event.py, class `Event(dict)`).

An event is a Python dict from string field names to values.  We model the
dict as an association list (in insertion order, with unique keys in any
dict produced by the code; lookup takes the first binding, which agrees
with dict semantics whenever keys are unique).
-/

structure Event where
  fields : List (String × Value)

/-- Dict lookup: the value bound to key `k`, if present. -/
def Event.lookup (e : Event) (k : String) : Option Value :=
  (e.fields.find? (fun p => p.1 == k)).map (fun p => p.2)

/-- Python `self.get(k)`: the bound value, or None for an absent key.
This is the body of `Event.__getattr__` (event.py lines 56-64). -/
def Event.get (e : Event) (k : String) : Value :=
  match e.lookup k with
  | some v => v
  | none => .null

/-- Python `self.get("tags", [])`: the body of the `tags` property
(event.py lines 47-54). -/
def Event.tagsProp (e : Event) : Value :=
  match e.lookup "tags" with
  | some v => v
  | none => .list []

/-- Names that resolve on the `Event` class before `__getattr__` is
consulted: the methods defined by `Event` itself (`add_tag`, `to_json`,
`format`) and the methods inherited from `dict` (Python 2.7).  The `tags`
property is handled separately since it returns a data value.  Double
underscore names (such as `__init__`) also resolve on the class; they are
omitted from the model, so every theorem quantifying over attribute names
is about names outside that namespace. -/
def eventMethodNames : List String :=
  ["add_tag", "to_json", "format",
   "clear", "copy", "fromkeys", "get", "has_key", "items", "iteritems",
   "iterkeys", "itervalues", "keys", "pop", "popitem", "setdefault",
   "update", "values", "viewitems", "viewkeys", "viewvalues"]

/-- Python attribute access `getattr(e, k)` on an `Event`.  Class
attributes take precedence: the `tags` property returns
`self.get("tags", [])`, a method name returns the bound method object.
Only when `k` resolves to nothing on the class is `Event.__getattr__`
invoked, which returns `self.get(k)` (a value, or None when absent, never
an error). -/
def Event.getattr (e : Event) (k : String) : Value :=
  if k == "tags" then e.tagsProp
  else if eventMethodNames.contains k then .method k
  else e.get k

/-- Python `hasattr(e, k)` for an `Event`: `Event.__getattr__` returns
`self.get(k)` and so never raises AttributeError, hence attribute lookup
succeeds for every name whatsoever. -/
def Event.hasattr (_e : Event) (_k : String) : Bool :=
  true

/-- The event view `DefaultDictProxy.__getitem__` (flow.py lines 75-79):
if `hasattr(self.d, k)` then `getattr(self.d, k)` else `self.d.get(k)`.
For events the `hasattr` test always succeeds (see `Event.hasattr`), so
the item is always the attribute. -/
def DefaultDictProxy.getitem (e : Event) (k : String) : Value :=
  if e.hasattr k then e.getattr k else e.get k

/-!
Condition expressions (flow.py, `Switch.__call__` and `If.__init__`).

A condition is either a user callable or a code string.  A code string is
compiled once (`compile(condition, "string", "eval")`) and then evaluated
per event by `eval(code, \x7b\x7d, ev)` where `ev` is a
`DefaultDictProxy` over the event, passed as the locals mapping.  Name
resolution inside such evaluated code consults the locals mapping first;
since the proxy lookup never raises, every name in the expression,
including `true`, `false`, `True`, `None` and builtins, resolves through
the proxy and hence through event attribute access.

`PyExpr` models the compiled form of the sub-language of Python
expressions that the spec names for conditions: names, string and integer
literals, equality, boolean connectives and membership.  CPython compiles
a bare identifier (such as `true`) to a name load, never to a boolean
constant.  Comparisons of further types and `in` on non-list values raise
in Python and are not exercised by any condition here; `in` is modelled on
list values (the tags sequence) and yields false elsewhere.
-/

inductive PyExpr where
  | name (k : String) : PyExpr
  | constStr (s : String) : PyExpr
  | constInt (n : Int) : PyExpr
  | eqCmp (a b : PyExpr) : PyExpr
  | neCmp (a b : PyExpr) : PyExpr
  | andOp (a b : PyExpr) : PyExpr
  | orOp (a b : PyExpr) : PyExpr
  | notOp (a : PyExpr) : PyExpr
  | inOp (a b : PyExpr) : PyExpr

/-- Evaluation of a compiled condition expression against a name-lookup
function (the locals mapping, i.e. the event view).  Python `and` and
`or` return an operand, not necessarily a boolean. -/
def evalPyExpr (view : String → Value) : PyExpr → Value
  | .name k => view k
  | .constStr s => .str s
  | .constInt n => .int n
  | .eqCmp a b => .bool (pyEq (evalPyExpr view a) (evalPyExpr view b))
  | .neCmp a b => .bool (!pyEq (evalPyExpr view a) (evalPyExpr view b))
  | .andOp a b =>
      let va := evalPyExpr view a
      if va.truthy then evalPyExpr view b else va
  | .orOp a b =>
      let va := evalPyExpr view a
      if va.truthy then va else evalPyExpr view b
  | .notOp a => .bool (!(evalPyExpr view a).truthy)
  | .inOp a b =>
      match evalPyExpr view b with
      | .list vs => .bool (vs.any (fun v => pyEq (evalPyExpr view a) v))
      | _ => .bool false

/-- A condition as stored on a Switch case or an If: a function of the
event view.  A lambda condition receives the `DefaultDictProxy` and can
read it; a compiled string condition evaluates its expression with the
proxy as the locals mapping. -/
def Cond : Type := (String → Value) → Value

/-- The compiled form of a condition string: evaluate the expression with
the event view as the locals mapping (flow.py line 113,
`lambda ev: eval(code, \x7b\x7d, ev)`). -/
def compileCond (x : PyExpr) : Cond :=
  fun view => evalPyExpr view x

/-- The condition string consisting of the bare word `true`.  CPython
compiles it to a load of the name `true` (it is an identifier, not a
keyword), so the compiled predicate looks `true` up in the event view. -/
def condStrTrue : Cond :=
  compileCond (.name "true")

/-- The condition string consisting of the bare word `false`, likewise a
name load. -/
def condStrFalse : Cond :=
  compileCond (.name "false")

/-- Whether a condition accepts an event: the condition is applied to the
event view (`case(DefaultDictProxy(event))`) and the result is used as a
Python truth value. -/
def condMatches (c : Cond) (e : Event) : Bool :=
  (c (DefaultDictProxy.getitem e)).truthy

/-- The always-true condition appended by `Switch.default`
(flow.py line 122, `self(lambda x: True)`). -/
def defaultCond : Cond :=
  fun _ => .bool true

/-- Registration of one case on a Switch (`Switch.__call__`, flow.py
lines 108-118): the pair of condition and fresh branch is appended to the
case list.  No validation of any kind is performed.  Branches are
identified here by their position in the list. -/
def Switch.addCase (cases : List Cond) (c : Cond) : List Cond :=
  cases ++ [c]

/-- Registration of the default case (`Switch.default`, flow.py lines
120-122): an ordinary case whose condition is `lambda x: True`. -/
def Switch.addDefault (cases : List Cond) : List Cond :=
  Switch.addCase cases defaultCond

/-- The body of `Switch.process` (flow.py lines 137-147).  Cases are
scanned in registration order; the first condition accepting the event
receives it on its branch input queue (modelled by returning the branch
index together with the enqueued event) and the call returns False; if no
condition accepts it, nothing is enqueued and the call returns True
(pass straight on). -/
def Switch.process (cases : List Cond) (e : Event) : Bool × Option (Nat × Event) :=
  match cases with
  | [] => (true, none)
  | c :: rest =>
      if condMatches c e then (false, some (0, e))
      else
        match Switch.process rest e with
        | (b, none) => (b, none)
        | (b, some (i, ev)) => (b, some (i + 1, ev))

/-- The body of `If.process` (flow.py lines 187-195): when the condition
accepts the event it is enqueued on the branch input (modelled by
returning it) and the call returns False; otherwise True. -/
def If.process (c : Cond) (e : Event) : Bool × Option Event :=
  if condMatches c e then (false, some e)
  else (true, none)

/-!
Timestamp rendering (used by `__str__`/`isoformat` of `datetime` and by
the JSON encoder).  The fixed-width helpers extract decimal digits
directly, which agrees with zero-padded decimal rendering for any value
that fits the field width (always the case for a valid datetime).
-/

/-- Two-digit zero-padded decimal. -/
def pad2 (n : Nat) : String :=
  String.mk [Nat.digitChar (n / 10 % 10), Nat.digitChar (n % 10)]

/-- Four-digit zero-padded decimal. -/
def pad4 (n : Nat) : String :=
  String.mk [Nat.digitChar (n / 1000 % 10), Nat.digitChar (n / 100 % 10),
    Nat.digitChar (n / 10 % 10), Nat.digitChar (n % 10)]

/-- Six-digit zero-padded decimal (the microsecond field of isoformat). -/
def pad6 (n : Nat) : String :=
  String.mk [Nat.digitChar (n / 100000 % 10), Nat.digitChar (n / 10000 % 10),
    Nat.digitChar (n / 1000 % 10), Nat.digitChar (n / 100 % 10),
    Nat.digitChar (n / 10 % 10), Nat.digitChar (n % 10)]

/-- The ISO-8601 rendering of a datetime with a chosen separator between
date and time, as produced by `datetime.isoformat(sep)`: the fractional
part is present exactly when `microsecond` is nonzero, and then has six
digits. -/
def Timestamp.isoWithSep (t : Timestamp) (sep : String) : String :=
  pad4 t.year ++ "-" ++ pad2 t.month ++ "-" ++ pad2 t.day ++ sep ++
    pad2 t.hour ++ ":" ++ pad2 t.minute ++ ":" ++ pad2 t.second ++
    (if t.microsecond == 0 then "" else "." ++ pad6 t.microsecond)

/-- Python `datetime.isoformat()` (the form used by `JSONEncoder.default`,
event.py lines 6-12). -/
def Timestamp.isoformat (t : Timestamp) : String :=
  t.isoWithSep "T"

/-- Python `str(datetime)`, which is `isoformat` with a space separator. -/
def Timestamp.strDatetime (t : Timestamp) : String :=
  t.isoWithSep " "

/-!
Python `str()` and `repr()` of values, as used by the format engine when a
placeholder has no format specifier.
-/

/-- Escape of one character inside a Python 2 string repr: backslash and
the quote are escaped, newline, tab and carriage return use their short
forms, and other characters outside the printable ASCII range use a
two-digit hex escape. -/
def pyReprCharEsc (c : Char) : String :=
  if c = Char.ofNat 92 then "\\\\"
  else if c = Char.ofNat 39 then "\\\x27"
  else if c = Char.ofNat 10 then "\\n"
  else if c = Char.ofNat 9 then "\\t"
  else if c = Char.ofNat 13 then "\\r"
  else if c.toNat < 32 || c.toNat > 126 then
    "\\x" ++ String.mk [Nat.digitChar (c.toNat / 16 % 16), Nat.digitChar (c.toNat % 16)]
  else String.singleton c

mutual

/-- Python `str(value)`.  Strings render as themselves, None and booleans
by their names, integers in decimal, datetimes via `isoformat` with a space separator, and
lists via their repr.  A bound method renders as its diagnostic form; the
repr of the owning dict inside it is elided as no event stores a method
as a field value. -/
def pyStr : Value → String
  | .null => "None"
  | .bool b => if b then "True" else "False"
  | .int n => toString n
  | .str s => s
  | .list vs => "[" ++ String.intercalate ", " (pyReprList vs) ++ "]"
  | .timestamp t => t.strDatetime
  | .method nm => "<bound method Event." ++ nm ++ ">"

/-- Python `repr(value)` for the values a list can contain.  The repr of
a datetime prints the constructor form, omitting the second and the
microsecond arguments when both render as zero, as CPython does. -/
def pyRepr : Value → String
  | .null => "None"
  | .bool b => if b then "True" else "False"
  | .int n => toString n
  | .str s => "\x27" ++ String.join (s.data.map pyReprCharEsc) ++ "\x27"
  | .list vs => "[" ++ String.intercalate ", " (pyReprList vs) ++ "]"
  | .timestamp t =>
      "datetime.datetime(" ++ toString t.year ++ ", " ++ toString t.month ++
        ", " ++ toString t.day ++ ", " ++ toString t.hour ++ ", " ++
        toString t.minute ++
        (if t.second == 0 && t.microsecond == 0 then ""
         else ", " ++ toString t.second) ++
        (if t.microsecond == 0 then "" else ", " ++ toString t.microsecond) ++
        ")"
  | .method nm => "<bound method Event." ++ nm ++ ">"

def pyReprList : List Value → List String
  | [] => []
  | v :: rest => pyRepr v :: pyReprList rest

end

/-!
The format engine (`Event.format`, event.py lines 77-91).

A template is modelled in its parsed form, a list of fragments, as
produced by `string.Formatter.parse`: literal text, named fields and
positional fields.  Format specifiers and conversions, which no claim
exercises, are not modelled; a placeholder renders its value with
`str()`.

`Event.format` chooses the formatter by
`raise_missing and Formatter() or DefaultFormatter()`: both objects are
truthy, so strict mode uses the standard `Formatter` and default mode the
`DefaultFormatter` of event.py lines 14-22.  The standard
`Formatter.get_value` evaluates `kwargs[key]` for a named field, a plain
dict item access on the event, which raises KeyError when the key is
absent; this is the MissingField failure of the spec.  `DefaultFormatter`
catches exactly KeyError and substitutes its class default, the empty
string.  A positional field with no argument list raises TypeError, and
one beyond the end of the list raises IndexError; neither is caught in
either mode.
-/

inductive Fragment where
  | lit (s : String) : Fragment
  | field (name : String) : Fragment
  | pos (i : Nat) : Fragment

inductive FmtErr where
  | missingField : FmtErr
  | indexError : FmtErr
  | typeError : FmtErr
  deriving DecidableEq, Repr

/-- Rendering of a single template fragment. -/
def renderFrag (raise_missing : Bool) (args : Option (List Value)) (e : Event) :
    Fragment → Except FmtErr String
  | .lit s => .ok s
  | .field k =>
      match e.lookup k with
      | some v => .ok (pyStr v)
      | none => if raise_missing then .error .missingField else .ok ""
  | .pos i =>
      match args with
      | none => .error .typeError
      | some l =>
          match l.get? i with
          | some v => .ok (pyStr v)
          | none => .error .indexError

/-- The body of `Event.format`: fragments render left to right and their
results concatenate; the first failing fragment aborts the call. -/
def Event.format (e : Event) (frags : List Fragment) (args : Option (List Value))
    (raise_missing : Bool) : Except FmtErr String :=
  match frags with
  | [] => .ok ""
  | f :: rest =>
      match renderFrag raise_missing args e f with
      | .error er => .error er
      | .ok s =>
          match Event.format e rest args raise_missing with
          | .error er => .error er
          | .ok t => .ok (s ++ t)

/-!
JSON serialization (`Event.to_json`, event.py lines 66-75, and the
`JSONEncoder` of lines 6-12).

`json.dumps` encodes strings in ASCII with the escapes below, separates
items with a comma and a space and keys from values with a colon and a
space.  A `datetime` value is not JSON-native, so the encoder calls
`JSONEncoder.default`, which returns `isoformat()`; the resulting string
is then encoded as a JSON string.  Any other non-native value falls
through to the base `default`, which raises TypeError; serialization can
therefore fail, modelled with `Option`.
-/

/-- Four lowercase hex digits, for a JSON unicode escape. -/
def toHex4 (n : Nat) : String :=
  String.mk [Nat.digitChar (n / 4096 % 16), Nat.digitChar (n / 256 % 16),
    Nat.digitChar (n / 16 % 16), Nat.digitChar (n % 16)]

/-- Escape of one character in a JSON string, as `json.dumps` produces
with its default ASCII output: quote and backslash get a backslash, the
common control characters their short escapes, and every character
outside the printable ASCII range a unicode escape.  Characters beyond
the basic multilingual plane, which encode as surrogate pairs, are not
modelled. -/
def jsonEscapeChar (c : Char) : String :=
  if c = Char.ofNat 34 then "\\\""
  else if c = Char.ofNat 92 then "\\\\"
  else if c = Char.ofNat 10 then "\\n"
  else if c = Char.ofNat 9 then "\\t"
  else if c = Char.ofNat 13 then "\\r"
  else if c = Char.ofNat 8 then "\\b"
  else if c = Char.ofNat 12 then "\\f"
  else if c.toNat < 32 || c.toNat > 126 then "\\u" ++ toHex4 c.toNat
  else String.singleton c

/-- JSON escaping of a character list. -/
def jsonEscapeList : List Char → String
  | [] => ""
  | c :: rest => jsonEscapeChar c ++ jsonEscapeList rest

/-- JSON escaping of a whole string. -/
def jsonEscape (s : String) : String :=
  jsonEscapeList s.data

mutual

/-- JSON encoding of a value, `none` when `json.dumps` would raise
TypeError. -/
def encodeValue : Value → Option String
  | .null => some "null"
  | .bool b => some (if b then "true" else "false")
  | .int n => some (toString n)
  | .str s => some ("\"" ++ jsonEscape s ++ "\"")
  | .list vs =>
      match encodeValueList vs with
      | some parts => some ("[" ++ String.intercalate ", " parts ++ "]")
      | none => none
  | .timestamp t => some ("\"" ++ jsonEscape t.isoformat ++ "\"")
  | .method _ => none

def encodeValueList : List Value → Option (List String)
  | [] => some []
  | v :: rest =>
      match encodeValue v, encodeValueList rest with
      | some sv, some srest => some (sv :: srest)
      | _, _ => none

end

/-- JSON encoding of the key and value pairs of the event dict, in dict
order. -/
def encodeFields : List (String × Value) → Option (List String)
  | [] => some []
  | (k, v) :: rest =>
      match encodeValue v, encodeFields rest with
      | some sv, some srest => some (("\"" ++ jsonEscape k ++ "\": " ++ sv) :: srest)
      | _, _ => none

/-- The body of `Event.to_json`: `json.dumps(self, cls=JSONEncoder)`. -/
def Event.to_json (e : Event) : Option String :=
  match encodeFields e.fields with
  | some parts => some ("\x7b" ++ String.intercalate ", " parts ++ "\x7d")
  | none => none

/-!
Graph wiring (`setup`, flow.py lines 15-18, 34-41, 56-62, 124-129,
177-180).

Queues are identified by allocation order: each `Queue()` (and the one
`BroadcastQueue` a Fanout builds) receives the next fresh natural number.
A value of type `Option Nat` is a queue reference or Python None, which
is what the setup pass threads around: every `setup` receives its output
queue as argument and its Python return value is again of this shape,
since `Sequence.setup` and `Fanin.setup` have no return statement and so
return None.

`Stage` is the configuration tree.  The leaf constructor `simple` covers
every SimpleStage other than Switch and If; Switch branches and the If
branch are the Sequences built by the configuration phase.  Conditions
play no part in wiring, so the wiring tree does not carry them.

`SimpleStage.setup` itself is in common.py, which is not among the source
files; its model below follows the spec.
-/

inductive Stage where
  | simple : Stage
  | fanin (children : List Stage) : Stage
  | sequence (children : List Stage) : Stage
  | fanout (children : List Stage) : Stage
  | switchS (branches : List Stage) : Stage
  | ifS (branch : Stage) : Stage

/-- A wired stage: the tree again, now annotated with the recorded
`input` and `output` attributes.  `fanin` records no input (Fanin never
assigns one); `fanout` records the id of its BroadcastQueue together with
the member references the broadcast covers. -/
inductive WStage where
  | simple (input : Nat) (output : Option Nat) : WStage
  | fanin (output : Option Nat) (children : List WStage) : WStage
  | sequence (input : Option Nat) (output : Option Nat) (children : List WStage) : WStage
  | fanout (input : Nat) (members : List (Option Nat)) (output : Option Nat)
      (children : List WStage) : WStage
  | switchS (input : Nat) (output : Option Nat) (branches : List WStage) : WStage
  | ifS (input : Nat) (output : Option Nat) (branch : WStage) : WStage

mutual

/-- The setup pass.  `setupStage stg q n` wires `stg` with output
reference `q` when `n` is the next fresh queue id, and yields the wired
stage, the Python return value of `setup`, and the next fresh id.

Modelled from the spec for the `simple` case: `SimpleStage.setup` (class
`SimpleStage` of common.py, not among the source files) allocates this
input queue of this stage, records `output = outputQueue` and returns the new
input queue (spec section 4.1).  The composite cases are translated from
flow.py: `Fanin.setup` records the output, passes it to every child and
returns None; `Sequence.setup` records the output, threads the children
in reverse order, records the resulting value as its input and returns
None; `Fanout.setup` records the output, collects the values returned by
the children and wraps them in a BroadcastQueue which becomes its input
and return value; `Switch.setup` wires each case branch to the output and
then behaves as a SimpleStage; `If.setup` wires its branch to the output
and then behaves as a SimpleStage. -/
def setupStage : Stage → Option Nat → Nat → WStage × Option Nat × Nat
  | .simple, q, n => (.simple n q, some n, n + 1)
  | .fanin cs, q, n =>
      let r := setupEach cs q n
      (.fanin q r.1, none, r.2)
  | .sequence cs, q, n =>
      let r := setupRev cs q n
      (.sequence r.2.1 q r.1, none, r.2.2)
  | .fanout cs, q, n =>
      let r := setupCollect cs q n
      (.fanout r.2.2 r.2.1 q r.1, some r.2.2, r.2.2 + 1)
  | .switchS brs, q, n =>
      let r := setupEach brs q n
      (.switchS r.2 q r.1, some r.2, r.2 + 1)
  | .ifS br, q, n =>
      let r := setupStage br q n
      (.ifS r.2.2 q r.1, some r.2.2, r.2.2 + 1)

/-- Children wired in order, each with the same output reference, return
values discarded (the Fanin loop, also the Switch case loop). -/
def setupEach : List Stage → Option Nat → Nat → List WStage × Nat
  | [], _, n => ([], n)
  | s :: rest, q, n =>
      let w := setupStage s q n
      let r := setupEach rest q w.2.2
      (w.1 :: r.1, r.2)

/-- The Sequence loop: children wired in reverse order, the value
returned by each child becoming the output reference of its predecessor;
yields the wired children in original order, the value left in the loop
variable, and the next fresh id. -/
def setupRev : List Stage → Option Nat → Nat → List WStage × Option Nat × Nat
  | [], q, n => ([], q, n)
  | s :: rest, q, n =>
      let r := setupRev rest q n
      let w := setupStage s r.2.1 r.2.2
      (w.1 :: r.1, w.2.1, w.2.2)

/-- The Fanout loop: children wired in order with the same output
reference, collecting their return values. -/
def setupCollect : List Stage → Option Nat → Nat → List WStage × List (Option Nat) × Nat
  | [], _, n => ([], [], n)
  | s :: rest, q, n =>
      let w := setupStage s q n
      let r := setupCollect rest q w.2.2
      (w.1 :: r.1, w.2.1 :: r.2.1, r.2.2)

end

/-- The recorded `output` attribute of a wired stage. -/
def WStage.outputQ : WStage → Option Nat
  | .simple _ o => o
  | .fanin o _ => o
  | .sequence _ o _ => o
  | .fanout _ _ o _ => o
  | .switchS _ o _ => o
  | .ifS _ o _ => o

/-- The recorded `input` attribute of a wired stage, as a queue
reference; `fanin` has none. -/
def WStage.inputQ : WStage → Option Nat
  | .simple i _ => some i
  | .fanin _ _ => none
  | .sequence i _ _ => i
  | .fanout i _ _ _ => some i
  | .switchS i _ _ => some i
  | .ifS i _ _ => some i

/-- The wired children of a wired stage. -/
def WStage.childrenW : WStage → List WStage
  | .simple _ _ => []
  | .fanin _ cs => cs
  | .sequence _ _ cs => cs
  | .fanout _ _ _ cs => cs
  | .switchS _ _ brs => brs
  | .ifS _ _ br => [br]

/-- Whether the `setup` of this stage kind returns its input queue: true for
SimpleStage, Fanout, Switch and If; false for Sequence and Fanin, whose
`setup` bodies end without a return statement. -/
def Stage.returnsInput : Stage → Bool
  | .simple => true
  | .fanout _ => true
  | .switchS _ => true
  | .ifS _ => true
  | .fanin _ => false
  | .sequence _ => false

/-- Chained wiring of a child list toward a final output reference: each
recorded output of each child is the input reference of the next child,
and the recorded output of the last child is the final reference. -/
def chainedB : List WStage → Option Nat → Bool
  | [], _ => true
  | [w], q => w.outputQ == q
  | w :: w2 :: rest, q => (w.outputQ == w2.inputQ) && chainedB (w2 :: rest) q


/-!
Sample events used by witnesses and counterexamples.
-/

/-- An event with a timestamp and a `kind` field, as in the Switch
routing scenario of the spec. -/
def evA : Event :=
  ⟨[("timestamp", .timestamp ⟨2013, 1, 1, 2, 34, 56, 789012⟩), ("kind", .str "A")]⟩

/-- An event whose timestamp has microsecond zero. -/
def evNoMicro : Event :=
  ⟨[("timestamp", .timestamp ⟨2013, 1, 1, 2, 34, 56, 0⟩), ("field", .str "x")]⟩

/-- An event storing a value under the field name `tags`. -/
def evTagged : Event :=
  ⟨[("tags", .str "boom")]⟩

/-!
Shared lemmas about the setup pass.
-/

/-- Every variant of `setup` records the passed reference as its output
attribute. -/
theorem setupStage_outputQ (s : Stage) (q : Option Nat) (n : Nat) :
    (setupStage s q n).1.outputQ = q := by
  cases s <;> simp [setupStage, WStage.outputQ]

/-- For the stage kinds whose `setup` ends in a return statement
(SimpleStage, Fanout, Switch, If), the returned value is the recorded
input queue. -/
theorem setupStage_ret_input (s : Stage) (q : Option Nat) (n : Nat)
    (h : s.returnsInput = true) :
    (setupStage s q n).2.1 = (setupStage s q n).1.inputQ := by
  cases s <;> simp_all [setupStage, Stage.returnsInput, WStage.inputQ]

/-- For the returning kinds the returned value is an actual queue
reference, never None. -/
theorem setupStage_ret_some (s : Stage) (q : Option Nat) (n : Nat)
    (h : s.returnsInput = true) :
    (setupStage s q n).2.1 ≠ none := by
  cases s <;> simp_all [setupStage, Stage.returnsInput]

/-- For Sequence and Fanin, whose `setup` has no return statement, the
returned value is None. -/
theorem setupStage_ret_none (s : Stage) (q : Option Nat) (n : Nat)
    (h : s.returnsInput = false) :
    (setupStage s q n).2.1 = none := by
  cases s <;> simp_all [setupStage, Stage.returnsInput]

/-- C1. Switch routing is first-match: `Switch.process` enqueues the
event on the input queue of the branch at the first position whose
condition accepts the event view and returns False, and returns True
with nothing enqueued when no condition accepts it; `If.process`
enqueues the event on the branch input and returns False exactly when
its condition accepts the event view, and returns True otherwise. -/
theorem switch_first_match_routing (cases : List Cond) (c : Cond) (e : Event) :
    Switch.process cases e =
      (match cases.findIdx? (fun cd => condMatches cd e) with
       | some i => (false, some (i, e))
       | none => (true, none)) ∧
    If.process c e =
      (if condMatches c e then (false, some e) else (true, none)) := by
  refine ⟨?_, rfl⟩
  induction cases with
  | nil => rfl
  | cons cd rest ih =>
    simp only [Switch.process, List.findIdx?_cons]
    by_cases h : condMatches cd e
    · simp [h]
    · simp only [h, if_neg, Bool.false_eq_true, not_false_eq_true, ih]
      cases hr : rest.findIdx? (fun cd => condMatches cd e) <;> simp [hr]

/-- C9. Routing never mutates the event: whenever `Switch.process` or
`If.process` enqueues an event on a branch input queue, the enqueued
event is exactly the event that was passed in, with the same fields
(hence the same tags and timestamp). -/
theorem routing_preserves_event (cases : List Cond) (c : Cond) (e : Event) :
    (∀ b i ev, Switch.process cases e = (b, some (i, ev)) →
      ev = e ∧ ev.fields = e.fields ∧ ev.tagsProp = e.tagsProp) ∧
    (∀ b ev, If.process c e = (b, some ev) →
      ev = e ∧ ev.fields = e.fields ∧ ev.tagsProp = e.tagsProp) := by
  constructor
  · induction cases with
    | nil => intro b i ev h; simp [Switch.process] at h
    | cons cd rest ih =>
      intro b i ev h
      simp only [Switch.process] at h
      by_cases hc : condMatches cd e
      · simp [hc] at h
        obtain ⟨-, -, rfl⟩ := h
        exact ⟨rfl, rfl, rfl⟩
      · simp only [hc, Bool.false_eq_true, if_neg, not_false_eq_true] at h
        cases hr : Switch.process rest e with
        | mk b2 o =>
          cases o with
          | none => rw [hr] at h; simp at h
          | some p =>
            rw [hr] at h
            simp at h
            obtain ⟨-, -, rfl⟩ := h
            obtain ⟨heq, -, -⟩ := ih b2 p.1 p.2 (by rw [hr])
            exact ⟨heq, by rw [heq], by rw [heq]⟩
  · intro b ev h
    simp only [If.process] at h
    by_cases hc : condMatches c e
    · simp [hc] at h
      obtain ⟨-, rfl⟩ := h
      exact ⟨rfl, rfl, rfl⟩
    · simp [hc] at h

/-- Witness for C9 at a concrete input: the default condition routes
`evA` to branch 0 and the enqueued event is `evA` itself. -/
theorem routing_preserves_event_witness :
    evA = evA ∧ evA.fields = evA.fields ∧ evA.tagsProp = evA.tagsProp :=
  (routing_preserves_event [defaultCond] defaultCond evA).1 false 0 evA rfl

/-- Counterexample to C4 as stated: the name `get` is not present as a
field of `evA`, yet attribute access yields the bound `dict.get` method,
not the null sentinel, because class attributes take precedence over
`Event.__getattr__`. -/
theorem event_getattr_method_counterexample :
    evA.lookup "get" = none ∧
    evA.getattr "get" = .method "get" ∧
    evA.getattr "get" ≠ .null :=
  ⟨rfl, rfl, fun h => Value.noConfusion h⟩

/-- C4 amended. For every field name that does not collide with an
attribute of the Event class and is not present in the event, attribute
access yields None (the null sentinel) and never fails; an absent name
that collides with a class attribute yields the attribute instead (a
bound method, or for `tags` the property): in particular the `tags`
attribute yields the empty sequence when the `tags` field is unset. -/
theorem event_missing_field_null (e : Event) (k : String) :
    (k ≠ "tags" → k ∉ eventMethodNames → e.lookup k = none →
      e.getattr k = .null) ∧
    (k ∈ eventMethodNames → e.getattr k = .method k) ∧
    (e.lookup "tags" = none → e.getattr "tags" = .list []) := by
  refine ⟨?_, ?_, ?_⟩
  · intro h1 h2 h3
    simp [Event.getattr, Event.get, h1, h2, h3]
  · intro h
    have hk : k ≠ "tags" := by
      intro hk
      subst hk
      simp [eventMethodNames] at h
    simp [Event.getattr, hk, h]
  · intro h
    simp [Event.getattr, Event.tagsProp, h]

/-- Witness for C4 amended at concrete inputs: `evA` has no `severity`
field and no tags, and the name `keys` resolves to the bound method. -/
theorem event_missing_field_null_witness :
    evA.getattr "severity" = .null ∧
    evA.getattr "keys" = .method "keys" ∧
    evA.getattr "tags" = .list [] :=
  ⟨(event_missing_field_null evA "severity").1 (by decide) (by decide) rfl,
   (event_missing_field_null evA "keys").2.1 (by decide),
   (event_missing_field_null evA "tags").2.2 rfl⟩

/-- Counterexample to C10 as stated: a stored value under the colliding
field name `tags` IS visible to conditions, because the `tags` property
returns the stored field.  The proxy hands a condition the stored value,
and a condition consisting of the bare name `tags` observes it as a
truthy value. -/
theorem proxy_tags_visible_counterexample :
    DefaultDictProxy.getitem evTagged "tags" = .str "boom" ∧
    condMatches (compileCond (.name "tags")) evTagged = true := by
  exact ⟨rfl, rfl⟩

/-- C10 amended. The condition event view is the same function as plain
Event attribute access (the dict-fallback branch of the proxy is
unreachable for events, since Event attribute lookup never raises).  A
field whose name collides with a dict or Event method (such as `get`,
`keys` or `items`) is shadowed by the bound method and its stored value
is invisible to conditions; but the name `tags` resolves through the
`tags` property, which returns the stored tags value (or the empty
sequence when absent), so a stored `tags` field IS visible. -/
theorem proxy_getitem_eq_getattr (e : Event) (k : String) :
    DefaultDictProxy.getitem e k = e.getattr k ∧
    (k ∈ eventMethodNames → DefaultDictProxy.getitem e k = .method k) ∧
    DefaultDictProxy.getitem e "tags" = e.tagsProp := by
  refine ⟨rfl, ?_, rfl⟩
  intro h
  have hk : k ≠ "tags" := by
    intro hk
    subst hk
    simp [eventMethodNames] at h
  simp [DefaultDictProxy.getitem, Event.hasattr, Event.getattr, hk, h]

/-- Witness for C10 amended at a concrete input: the proxy returns the
bound method for the name `get`. -/
theorem proxy_getitem_eq_getattr_witness :
    DefaultDictProxy.getitem evA "get" = .method "get" :=
  (proxy_getitem_eq_getattr evA "get").2.1 (by decide)

/-- Counterexample to C8 as stated: the condition string `true` compiles
to a load of the name `true`, which the event view resolves as a field
lookup; on `evA`, which has no such field, the compiled predicate
evaluates to None, so it is NOT true on every event: an If with this
condition passes the event through and a Switch with this single case
routes nothing to its branch. -/
theorem condition_true_literal_counterexample :
    condMatches condStrTrue evA = false ∧
    If.process condStrTrue evA = (true, none) ∧
    Switch.process [condStrTrue] evA = (true, none) := by
  exact ⟨rfl, rfl, rfl⟩

/-- C8 amended. A condition string consisting of the bare word `true`
(or `false`) is not a boolean literal of the condition language: it
compiles to a name load resolved through the event view, so it evaluates
to the value of the homonymous event field, which is None (falsy) on
every event lacking the field, and an If guarded by it passes every such
event through. -/
theorem condition_true_is_name_lookup (e : Event) :
    condMatches condStrTrue e = (DefaultDictProxy.getitem e "true").truthy ∧
    (e.lookup "true" = none → condMatches condStrTrue e = false ∧
      If.process condStrTrue e = (true, none)) ∧
    (e.lookup "false" = none → condMatches condStrFalse e = false) := by
  refine ⟨rfl, ?_, ?_⟩
  · intro h
    have hm : condMatches condStrTrue e = false := by
      simp [condMatches, condStrTrue, compileCond, evalPyExpr,
        DefaultDictProxy.getitem, Event.hasattr, Event.getattr, Event.get,
        eventMethodNames, h, Value.truthy]
    exact ⟨hm, by simp [If.process, hm]⟩
  · intro h
    simp [condMatches, condStrFalse, compileCond, evalPyExpr,
      DefaultDictProxy.getitem, Event.hasattr, Event.getattr, Event.get,
      eventMethodNames, h, Value.truthy]

/-- Witness for C8 amended at a concrete input: `evNoMicro` lacks both
fields. -/
theorem condition_true_is_name_lookup_witness :
    condMatches condStrTrue evNoMicro = false ∧
    If.process condStrTrue evNoMicro = (true, none) :=
  (condition_true_is_name_lookup evNoMicro).2.1 rfl

/-- The misconfigured Switch of C7: the default case registered first,
followed by an ordinary case. -/
def misCases : List Cond :=
  Switch.addCase (Switch.addDefault [])
    (compileCond (.eqCmp (.name "kind") (.constStr "A")))

/-- Counterexample to C7 as stated: registering the default case before
another case raises no error whatsoever; the configuration builds the
two-case list and the switch runs, routing `evA` to the default branch
at position 0 even though the later case matches `evA`.  Graph
construction does not abort and the graph starts normally. -/
theorem switch_default_not_last_counterexample :
    misCases.length = 2 ∧
    condMatches (compileCond (.eqCmp (.name "kind") (.constStr "A"))) evA = true ∧
    Switch.process misCases evA = (false, some (0, evA)) := by
  exact ⟨rfl, rfl, rfl⟩

/-- C7 amended. A Switch configuration with the default case registered
anywhere is accepted: `Switch.default` registers an ordinary case whose
condition is always true, and no validation of case order exists.  At
runtime every event is routed to the default or to an earlier case
(first match wins), so the cases after a misplaced default are
unreachable. -/
theorem switch_default_anywhere_total (pre post : List Cond) (e : Event) :
    ∃ i, i ≤ pre.length ∧
      Switch.process (pre ++ defaultCond :: post) e = (false, some (i, e)) := by
  induction pre with
  | nil =>
    exact ⟨0, Nat.le_refl 0, by simp [Switch.process, condMatches, defaultCond, Value.truthy]⟩
  | cons c rest ih =>
    by_cases h : condMatches c e
    · exact ⟨0, Nat.zero_le _, by simp [Switch.process, h]⟩
    · obtain ⟨i, hle, heq⟩ := ih
      refine ⟨i + 1, Nat.succ_le_succ hle, ?_⟩
      simp [Switch.process, h, heq]

/-!
Format claims.
-/

/-- Whether a fragment renders without raising in the given mode: a
literal always does; a named field always does in default mode and
requires a present key in strict mode; a positional field requires an
argument list long enough. -/
def fragSafe (raise_missing : Bool) (args : Option (List Value)) (e : Event) :
    Fragment → Bool
  | .lit _ => true
  | .field k => !raise_missing || (e.lookup k).isSome
  | .pos i =>
      match args with
      | none => false
      | some l => decide (i < l.length)

/-- A safe fragment renders to a string. -/
theorem renderFrag_ok (rm : Bool) (args : Option (List Value)) (e : Event)
    (f : Fragment) (h : fragSafe rm args e f = true) :
    ∃ s, renderFrag rm args e f = .ok s := by
  cases f with
  | lit s => exact ⟨s, rfl⟩
  | field k =>
    cases hl : e.lookup k with
    | some v => exact ⟨pyStr v, by simp [renderFrag, hl]⟩
    | none =>
      cases rm with
      | false => exact ⟨"", by simp [renderFrag, hl]⟩
      | true => simp [fragSafe, hl] at h
  | pos i =>
    cases args with
    | none => simp [fragSafe] at h
    | some l =>
      simp only [fragSafe, decide_eq_true_eq] at h
      cases hg : l.get? i with
      | some v =>
        have hg2 : l[i]? = some v := by rw [← List.get?_eq_getElem?]; exact hg
        exact ⟨pyStr v, by simp [renderFrag, hg2]⟩
      | none => exact absurd (List.get?_eq_none.mp hg) (Nat.not_le.mpr h)

/-- A template all of whose fragments are safe renders to a string. -/
theorem format_ok (e : Event) (args : Option (List Value)) (rm : Bool)
    (frags : List Fragment) (h : ∀ f ∈ frags, fragSafe rm args e f = true) :
    ∃ s, Event.format e frags args rm = .ok s := by
  induction frags with
  | nil => exact ⟨"", rfl⟩
  | cons f rest ih =>
    obtain ⟨s, hs⟩ := renderFrag_ok rm args e f (h f (by simp))
    obtain ⟨t, ht⟩ := ih (fun g hg => h g (by simp [hg]))
    exact ⟨s ++ t, by simp [Event.format, hs, ht]⟩

/-- In strict mode a template whose prefix is safe fails with
MissingField at the first absent named field. -/
theorem format_strict_error (e : Event) (args : Option (List Value)) (k : String)
    (post : List Fragment) (hk : e.lookup k = none) :
    ∀ pre : List Fragment, (∀ f ∈ pre, fragSafe true args e f = true) →
      Event.format e (pre ++ .field k :: post) args true = .error .missingField := by
  intro pre
  induction pre with
  | nil => intro _; simp [Event.format, renderFrag, hk]
  | cons f rest ih =>
    intro h
    obtain ⟨s, hs⟩ := renderFrag_ok true args e f (h f (by simp))
    simp [Event.format, hs, ih (fun g hg => h g (by simp [hg]))]

/-- In default mode an absent named field renders exactly like the empty
literal. -/
theorem format_missing_renders_empty (e : Event) (args : Option (List Value))
    (k : String) (post : List Fragment) (hk : e.lookup k = none) :
    ∀ pre : List Fragment,
      Event.format e (pre ++ .field k :: post) args false =
        Event.format e (pre ++ .lit "" :: post) args false := by
  intro pre
  induction pre with
  | nil => simp [Event.format, renderFrag, hk]
  | cons f rest ih => simp [Event.format, ih]

/-- C5. `Event.format` resolves named placeholders against the fields:
for a template containing a name absent from the event (and otherwise
safe positional fields), default mode renders the missing name as the
empty string and raises no error, while strict mode (`raise_missing`)
fails with the MissingField error (the KeyError raised by dict item
lookup inside `Formatter.get_value`). -/
theorem format_missing_field (e : Event) (k : String) (args : Option (List Value))
    (pre post : List Fragment)
    (hk : e.lookup k = none)
    (hsafe : ∀ f ∈ pre ++ post, fragSafe false args e f = true)
    (hpre : ∀ f ∈ pre, fragSafe true args e f = true) :
    (∃ s, Event.format e (pre ++ .field k :: post) args false = .ok s) ∧
    Event.format e (pre ++ .field k :: post) args false =
      Event.format e (pre ++ .lit "" :: post) args false ∧
    Event.format e (pre ++ .field k :: post) args true = .error .missingField := by
  refine ⟨?_, format_missing_renders_empty e args k post hk pre,
    format_strict_error e args k post hk pre hpre⟩
  apply format_ok
  intro f hf
  rcases List.mem_append.mp hf with h1 | h2
  · exact hsafe f (List.mem_append.mpr (Or.inl h1))
  · rcases List.mem_cons.mp h2 with h3 | h4
    · subst h3; simp [fragSafe]
    · exact hsafe f (List.mem_append.mpr (Or.inr h4))

/-- Witness for C5 at concrete inputs: `evA` has no `missing` field, so
the two-fragment template renders in default mode and fails with
MissingField in strict mode. -/
theorem format_missing_field_witness :
    (∃ s, Event.format evA [.lit "field=", .field "missing"] none false = .ok s) ∧
    Event.format evA [.lit "field=", .field "missing"] none false =
      Event.format evA [.lit "field=", .lit ""] none false ∧
    Event.format evA [.lit "field=", .field "missing"] none true =
      .error .missingField :=
  format_missing_field evA "missing" none [.lit "field="] [] rfl
    (by intro f hf; fin_cases hf; rfl) (by intro f hf; fin_cases hf; rfl)

/-!
JSON claims.
-/

/-- Escaping a decimal digit character leaves it unchanged. -/
theorem jsonEscapeChar_digit (n : Nat) (h : n < 10) :
    jsonEscapeChar (Nat.digitChar n) = String.singleton (Nat.digitChar n) := by
  interval_cases n <;> rfl

/-- Escaping distributes over list concatenation. -/
theorem jsonEscapeList_append (l1 l2 : List Char) :
    jsonEscapeList (l1 ++ l2) = jsonEscapeList l1 ++ jsonEscapeList l2 := by
  induction l1 with
  | nil => rfl
  | cons c rest ih => simp [jsonEscapeList, ih, String.append_assoc]

/-- Escaping distributes over string concatenation. -/
theorem jsonEscape_append (a b : String) :
    jsonEscape (a ++ b) = jsonEscape a ++ jsonEscape b := by
  simp [jsonEscape, String.data_append, jsonEscapeList_append]

/-- Two-digit rendering contains only digit characters, so escaping
leaves it unchanged. -/
theorem jsonEscape_pad2 (n : Nat) : jsonEscape (pad2 n) = pad2 n := by
  show jsonEscapeChar (Nat.digitChar (n / 10 % 10)) ++
    (jsonEscapeChar (Nat.digitChar (n % 10)) ++ "") = pad2 n
  rw [jsonEscapeChar_digit _ (Nat.mod_lt _ (by norm_num)),
    jsonEscapeChar_digit _ (Nat.mod_lt _ (by norm_num))]
  rfl

/-- Four-digit rendering is unchanged by escaping. -/
theorem jsonEscape_pad4 (n : Nat) : jsonEscape (pad4 n) = pad4 n := by
  show jsonEscapeChar (Nat.digitChar (n / 1000 % 10)) ++
    (jsonEscapeChar (Nat.digitChar (n / 100 % 10)) ++
      (jsonEscapeChar (Nat.digitChar (n / 10 % 10)) ++
        (jsonEscapeChar (Nat.digitChar (n % 10)) ++ ""))) = pad4 n
  rw [jsonEscapeChar_digit _ (Nat.mod_lt _ (by norm_num)),
    jsonEscapeChar_digit _ (Nat.mod_lt _ (by norm_num)),
    jsonEscapeChar_digit _ (Nat.mod_lt _ (by norm_num)),
    jsonEscapeChar_digit _ (Nat.mod_lt _ (by norm_num))]
  rfl

/-- Six-digit rendering is unchanged by escaping. -/
theorem jsonEscape_pad6 (n : Nat) : jsonEscape (pad6 n) = pad6 n := by
  show jsonEscapeChar (Nat.digitChar (n / 100000 % 10)) ++
    (jsonEscapeChar (Nat.digitChar (n / 10000 % 10)) ++
      (jsonEscapeChar (Nat.digitChar (n / 1000 % 10)) ++
        (jsonEscapeChar (Nat.digitChar (n / 100 % 10)) ++
          (jsonEscapeChar (Nat.digitChar (n / 10 % 10)) ++
            (jsonEscapeChar (Nat.digitChar (n % 10)) ++ ""))))) = pad6 n
  rw [jsonEscapeChar_digit _ (Nat.mod_lt _ (by norm_num)),
    jsonEscapeChar_digit _ (Nat.mod_lt _ (by norm_num)),
    jsonEscapeChar_digit _ (Nat.mod_lt _ (by norm_num)),
    jsonEscapeChar_digit _ (Nat.mod_lt _ (by norm_num)),
    jsonEscapeChar_digit _ (Nat.mod_lt _ (by norm_num)),
    jsonEscapeChar_digit _ (Nat.mod_lt _ (by norm_num))]
  rfl

/-- The separator literals of an isoformat string are unchanged by
escaping. -/
theorem jsonEscape_dash : jsonEscape "-" = "-" := rfl

theorem jsonEscape_colon : jsonEscape ":" = ":" := rfl

theorem jsonEscape_sepT : jsonEscape "T" = "T" := rfl

theorem jsonEscape_dot : jsonEscape "." = "." := rfl

theorem jsonEscape_empty : jsonEscape "" = "" := rfl

/-- The key `timestamp` needs no escaping. -/
theorem jsonEscape_timestamp_key : jsonEscape "timestamp" = "timestamp" := rfl

/-- Intercalation of a single item is the item. -/
theorem intercalate_single (x : String) : String.intercalate ", " [x] = x := rfl

/-- An isoformat string consists of digits and plain separators, so JSON
escaping leaves it unchanged. -/
theorem jsonEscape_isoformat (t : Timestamp) :
    jsonEscape t.isoformat = t.isoformat := by
  unfold Timestamp.isoformat Timestamp.isoWithSep
  cases h : t.microsecond == 0 <;>
    simp [h, jsonEscape_append, jsonEscape_pad2, jsonEscape_pad4, jsonEscape_pad6,
      jsonEscape_dash, jsonEscape_colon, jsonEscape_sepT, jsonEscape_dot,
      jsonEscape_empty, String.append_assoc]

/-- Counterexample to C6 as stated: an event whose timestamp has
microsecond zero serializes with NO fractional part at all, so the six
microsecond digits are not always present. -/
theorem to_json_micro_zero_counterexample :
    Event.to_json evNoMicro =
      some "\x7b\"timestamp\": \"2013-01-01T02:34:56\", \"field\": \"x\"\x7d" ∧
    (Timestamp.isoformat ⟨2013, 1, 1, 2, 34, 56, 0⟩).data.contains (Char.ofNat 46) = false := by
  exact ⟨rfl, rfl⟩

/-- C6 amended. `to_json` serializes the timestamp field as the
isoformat string: when the microsecond field is nonzero this has the
form YYYY-MM-DDTHH:MM:SS.uuuuuu with exactly six microsecond digits, but
when the microsecond field is zero the fractional part is omitted
entirely (YYYY-MM-DDTHH:MM:SS); other values use standard JSON
encoding. -/
theorem to_json_timestamp_iso (t : Timestamp) :
    encodeValue (.timestamp t) = some ("\"" ++ t.isoformat ++ "\"") ∧
    Event.to_json ⟨[("timestamp", .timestamp t)]⟩ =
      some ("\x7b" ++ "\"" ++ "timestamp" ++ "\": " ++ "\"" ++ t.isoformat ++ "\"" ++ "\x7d") ∧
    (t.microsecond ≠ 0 →
      t.isoformat = pad4 t.year ++ "-" ++ pad2 t.month ++ "-" ++ pad2 t.day ++ "T" ++
        pad2 t.hour ++ ":" ++ pad2 t.minute ++ ":" ++ pad2 t.second ++ "." ++
        pad6 t.microsecond ∧
      (pad6 t.microsecond).length = 6) ∧
    (t.microsecond = 0 →
      t.isoformat = pad4 t.year ++ "-" ++ pad2 t.month ++ "-" ++ pad2 t.day ++ "T" ++
        pad2 t.hour ++ ":" ++ pad2 t.minute ++ ":" ++ pad2 t.second) := by
  refine ⟨?_, ?_, ?_, ?_⟩
  · simp [encodeValue, jsonEscape_isoformat]
  · simp [Event.to_json, encodeFields, encodeValue, jsonEscape_isoformat,
      jsonEscape_timestamp_key, intercalate_single, String.append_assoc]
    conv_lhs => rw [← String.append_assoc, ← String.append_assoc]
    simp
  · intro h
    constructor
    · unfold Timestamp.isoformat Timestamp.isoWithSep
      simp [h, String.append_assoc]
    · rfl
  · intro h
    unfold Timestamp.isoformat Timestamp.isoWithSep
    simp [h, String.append_empty]

/-- Witness for C6 amended at a concrete input: microsecond 789012 is
nonzero, so the fractional part is present with six digits. -/
theorem to_json_timestamp_iso_witness :
    Timestamp.isoformat ⟨2013, 1, 1, 2, 34, 56, 789012⟩ =
      pad4 2013 ++ "-" ++ pad2 1 ++ "-" ++ pad2 1 ++ "T" ++ pad2 2 ++ ":" ++
        pad2 34 ++ ":" ++ pad2 56 ++ "." ++ pad6 789012 ∧
    (pad6 789012).length = 6 :=
  (to_json_timestamp_iso ⟨2013, 1, 1, 2, 34, 56, 789012⟩).2.2.1 (by decide)

/-!
Wiring claims.
-/

/-- Counterexample to C2 as stated: `Sequence.setup` records its input
queue but returns None (its body has no return statement), and
`Fanin.setup` likewise returns None, so `setup` does not return the
input queue for every stage. -/
theorem setup_return_counterexample :
    (setupStage (.sequence [.simple]) (some 0) 1).2.1 = none ∧
    (setupStage (.sequence [.simple]) (some 0) 1).1.inputQ = some 1 ∧
    (setupStage (.fanin [.simple]) (some 0) 1).2.1 = none := by
  exact ⟨rfl, rfl, rfl⟩

/-- C2 amended. Every variant of `setup` records the passed queue as the
output attribute of the stage.  SimpleStage, Fanout, Switch and If
return their input queue (never None); Sequence and Fanin end without a
return statement and return None, even though Sequence does record an
input attribute. -/
theorem setup_records_output (stg : Stage) (q : Option Nat) (n : Nat) :
    (setupStage stg q n).1.outputQ = q ∧
    (stg.returnsInput = true →
      (setupStage stg q n).2.1 = (setupStage stg q n).1.inputQ ∧
      (setupStage stg q n).2.1 ≠ none) ∧
    (stg.returnsInput = false → (setupStage stg q n).2.1 = none) :=
  ⟨setupStage_outputQ stg q n,
   fun h => ⟨setupStage_ret_input stg q n h, setupStage_ret_some stg q n h⟩,
   fun h => setupStage_ret_none stg q n h⟩

/-- Witness for C2 amended at a concrete input: a SimpleStage wired to
queue 0 allocates queue 1, records output 0 and returns queue 1. -/
theorem setup_records_output_witness :
    (setupStage .simple (some 0) 1).1.outputQ = some 0 ∧
    (setupStage .simple (some 0) 1).2.1 = (setupStage .simple (some 0) 1).1.inputQ ∧
    (setupStage .simple (some 0) 1).2.1 ≠ none :=
  ⟨(setup_records_output .simple (some 0) 1).1,
   ((setup_records_output .simple (some 0) 1).2.1 rfl).1,
   ((setup_records_output .simple (some 0) 1).2.1 rfl).2⟩

/-- The Sequence loop threads the children correctly when every child
returns its input queue: the wired children are chained toward the
final output and the value left in the loop variable is the input
reference of the first child. -/
theorem setupRev_spec (cs : List Stage) (q : Option Nat) (n : Nat)
    (h : ∀ s ∈ cs, s.returnsInput = true) :
    chainedB (setupRev cs q n).1 q = true ∧
    (setupRev cs q n).2.1 =
      (match (setupRev cs q n).1 with
       | [] => q
       | w :: _ => w.inputQ) := by
  induction cs with
  | nil => exact ⟨rfl, rfl⟩
  | cons s rest ih =>
    have hs : s.returnsInput = true := h s (List.mem_cons_self s rest)
    obtain ⟨hch, hret⟩ := ih (fun x hx => h x (List.mem_cons_of_mem s hx))
    have hri := setupStage_ret_input s (setupRev rest q n).2.1 (setupRev rest q n).2.2 hs
    constructor
    · show chainedB
        ((setupStage s (setupRev rest q n).2.1 (setupRev rest q n).2.2).1 ::
          (setupRev rest q n).1) q = true
      cases hws : (setupRev rest q n).1 with
      | nil =>
        rw [hws] at hret
        simp [chainedB, hret, setupStage_outputQ]
      | cons w2 ws2 =>
        rw [hws] at hret hch
        simp [chainedB, hret, hch, setupStage_outputQ]
    · show (setupStage s (setupRev rest q n).2.1 (setupRev rest q n).2.2).2.1 =
        WStage.inputQ (setupStage s (setupRev rest q n).2.1 (setupRev rest q n).2.2).1
      exact hri

/-- Counterexample to C3 as stated: a Sequence whose first child is
itself a Sequence records None as its input, while its first child
records queue 1 as input, because the inner `setup` returns None; so
the input of the Sequence does not equal the input queue of its first
child for every Sequence. -/
theorem sequence_wiring_counterexample :
    (setupStage (.sequence [.sequence [.simple]]) (some 0) 1).1.inputQ = none ∧
    List.map WStage.inputQ
      (setupStage (.sequence [.sequence [.simple]]) (some 0) 1).1.childrenW =
      [some 1] := by
  exact ⟨rfl, rfl⟩

/-- C3 amended. For a Sequence whose children all have a returning
`setup` (SimpleStage, Fanout, Switch or If children), `setup` visits the
children in reverse order and threads the queues so that each child
records as output the input queue of its successor, the last child
records the final output queue, and the Sequence records as its input
the input queue of its first child. -/
theorem sequence_wiring (cs : List Stage) (q : Option Nat) (n : Nat)
    (h : ∀ s ∈ cs, s.returnsInput = true) :
    chainedB ((setupStage (.sequence cs) q n).1.childrenW) q = true ∧
    (setupStage (.sequence cs) q n).1.inputQ =
      (match (setupStage (.sequence cs) q n).1.childrenW with
       | [] => q
       | w :: _ => w.inputQ) := by
  obtain ⟨h1, h2⟩ := setupRev_spec cs q n h
  exact ⟨h1, h2⟩

/-- Witness for C3 amended at a concrete input: a two-child Sequence of
SimpleStages wired to queue 0. -/
theorem sequence_wiring_witness :
    chainedB ((setupStage (.sequence [.simple, .simple]) (some 0) 1).1.childrenW)
      (some 0) = true ∧
    (setupStage (.sequence [.simple, .simple]) (some 0) 1).1.inputQ =
      (match (setupStage (.sequence [.simple, .simple]) (some 0) 1).1.childrenW with
       | [] => some 0
       | w :: _ => w.inputQ) :=
  sequence_wiring [.simple, .simple] (some 0) 1 (by decide)
